import Mathlib

/-!
# Shallow embedding of the lab2cpp image codec and compositor

The repository contains four program variants of the same assignment:
`src/project2.cpp` and the three programs concatenated in
`src/unnamed/part_000` (separated by document markers).  Definitions below
are translated from those sources:

* `Lab2.TGA.load` / `Lab2.TGA.save`   — first `part_000` program (lines 64–115)
* `Lab2.TGA.loadV2` / `Lab2.TGA.saveV2` — second `part_000` program (lines 570–621)
* `Lab2.TGA.saveV3`                   — third `part_000` program (lines 1015–1034)
* `Lab2.Blend.*`, `Lab2.combineRGB`, `Lab2.rotate180`
                                      — first `part_000` program (lines 121–259)
* `Lab2.P2.*`                         — `src/project2.cpp`

Byte values are modelled as `Nat` (C++ `uint8_t` samples are always in
0–255; theorems carry explicit bounds where the arithmetic depends on
them).  A file on disk is a flat byte list; `std::ifstream` header reads
are modelled positionally with `List.getD _ 0`, which also matches the
zero-initialised header struct that a short read leaves behind.
-/

namespace Lab2

/-- A little-endian 16-bit header field: low byte plus 256 times the high
byte (`uint16_t` fields of the packed TGA header). -/
def u16 (lo hi : Nat) : Nat := lo + 256 * hi

/-- The `rowBytes`-byte scanline starting at row `y` of a flat byte list —
the address arithmetic `data + y*rowBytes` used by the `memcpy` loops. -/
def sliceRow (l : List Nat) (rowBytes y : Nat) : List Nat :=
  (l.drop (y * rowBytes)).take rowBytes

/-- The row-reversing copy loop `tmp[y] = src[h-1-y]` of `TGA::load`
(orientation flip) and of the second variant of `TGA::save`; with
`rowBytes = 3` and `h = width*height` it is also the pixel loop of
`rotate180`. -/
def reverseRows (l : List Nat) (rowBytes h : Nat) : List Nat :=
  ((List.range h).map fun y => sliceRow l rowBytes (h - 1 - y)).flatten

/-- Writing the `h` scanlines in memory order (the row loop of the first
variant of `TGA::save`). -/
def forwardRows (l : List Nat) (rowBytes h : Nat) : List Nat :=
  ((List.range h).map fun y => sliceRow l rowBytes y).flatten

/-- In-memory pixel buffer (`struct Image` of `part_000`): BGR byte
triplets, bottom-left origin, `pixels.length = width * height * 3` for
every buffer the programs construct. -/
structure Image where
  width : Nat
  height : Nat
  pixels : List Nat
deriving DecidableEq

/- ## Row-slicing lemmas -/

lemma sliceRow_length {l : List Nat} {rowBytes h y : Nat} (hy : y < h)
    (hl : l.length = h * rowBytes) : (sliceRow l rowBytes y).length = rowBytes := by
  have h1 : y * rowBytes + rowBytes ≤ h * rowBytes := by
    have := Nat.mul_le_mul_right rowBytes (Nat.succ_le_of_lt hy)
    simpa [Nat.succ_mul] using this
  simp only [sliceRow, List.length_take, List.length_drop, hl]
  omega

lemma forwardRows_eq {rowBytes : Nat} : ∀ (h : Nat) (l : List Nat),
    l.length = h * rowBytes → forwardRows l rowBytes h = l := by
  intro h
  induction h with
  | zero =>
      intro l hl
      simp only [Nat.zero_mul] at hl
      simp [forwardRows, List.length_eq_zero.mp hl]
  | succ n ih =>
      intro l hl
      have hdl : (l.drop rowBytes).length = n * rowBytes := by
        simp [List.length_drop, hl, Nat.succ_mul]
      have step : ∀ y : Nat, sliceRow l rowBytes (y + 1) =
          sliceRow (l.drop rowBytes) rowBytes y := by
        intro y
        simp [sliceRow, List.drop_drop, Nat.succ_mul, Nat.add_comm]
      calc forwardRows l rowBytes (n + 1)
          = sliceRow l rowBytes 0 ++
            ((List.range n).map fun y => sliceRow l rowBytes (y + 1)).flatten := by
              simp [forwardRows, List.range_succ_eq_map, List.map_map, Function.comp_def]
        _ = l.take rowBytes ++ forwardRows (l.drop rowBytes) rowBytes n := by
              simp only [sliceRow, Nat.zero_mul, List.drop_zero, forwardRows]
              congr 1
              exact congrArg List.flatten (List.map_congr_left fun y _ => step y)
        _ = l := by rw [ih _ hdl]; exact List.take_append_drop _ _

lemma sliceRow_flatten {rowBytes : Nat} : ∀ (L : List (List Nat)) (y : Nat),
    (∀ r ∈ L, r.length = rowBytes) → y < L.length →
    sliceRow L.flatten rowBytes y = L.getD y [] := by
  intro L
  induction L with
  | nil => intro y _ hy; simp at hy
  | cons r L ih =>
      intro y hlen hy
      cases y with
      | zero =>
          have hr : r.length = rowBytes := hlen r (by simp)
          simp [sliceRow, List.take_left' hr]
      | succ y =>
          have hr : r.length = rowBytes := hlen r (by simp)
          have h1 : sliceRow (r :: L).flatten rowBytes (y + 1) =
              sliceRow L.flatten rowBytes y := by
            simp only [sliceRow, List.flatten_cons, Nat.succ_mul]
            rw [Nat.add_comm (y * rowBytes) rowBytes, ← List.drop_drop, List.drop_left' hr]
          rw [h1, List.getD_cons_succ]
          exact ih y (fun s hs => hlen s (by simp [hs])) (by simpa using hy)

lemma reverseRows_length {l : List Nat} {rowBytes h : Nat}
    (hl : l.length = h * rowBytes) : (reverseRows l rowBytes h).length = h * rowBytes := by
  unfold reverseRows
  rw [List.length_flatten, List.map_map]
  have hcongr : ((List.range h).map
      (List.length ∘ fun y => sliceRow l rowBytes (h - 1 - y))) =
      (List.range h).map fun _ => rowBytes := by
    refine List.map_congr_left fun y hy => ?_
    have hy' : y < h := List.mem_range.mp hy
    exact sliceRow_length (by omega) hl
  rw [hcongr, List.map_const', List.sum_replicate, List.length_range, smul_eq_mul]

lemma sliceRow_reverseRows {l : List Nat} {rowBytes h y : Nat}
    (hl : l.length = h * rowBytes) (hy : y < h) :
    sliceRow (reverseRows l rowBytes h) rowBytes y = sliceRow l rowBytes (h - 1 - y) := by
  unfold reverseRows
  rw [sliceRow_flatten _ y
    (fun r hr => by
      obtain ⟨z, hz, rfl⟩ := List.mem_map.mp hr
      exact sliceRow_length (by have := List.mem_range.mp hz; omega) hl)
    (by simpa using hy)]
  rw [List.getD_eq_getElem _ _ (by simpa using hy)]
  simp

lemma reverseRows_reverseRows {l : List Nat} {rowBytes h : Nat}
    (hl : l.length = h * rowBytes) :
    reverseRows (reverseRows l rowBytes h) rowBytes h = l := by
  have step : ∀ y ∈ List.range h,
      sliceRow (reverseRows l rowBytes h) rowBytes (h - 1 - y) = sliceRow l rowBytes y := by
    intro y hy
    have hy' : y < h := List.mem_range.mp hy
    rw [sliceRow_reverseRows hl (by omega)]
    congr 1
    omega
  calc reverseRows (reverseRows l rowBytes h) rowBytes h
      = forwardRows l rowBytes h := by
        unfold reverseRows forwardRows
        exact congrArg List.flatten (List.map_congr_left step)
    _ = l := forwardRows_eq h l hl

/-- Element view of a row slice: for an in-range channel offset `c`, the
`c`-th byte of row `y` is byte `y*rowBytes + c` of the flat list (with the
same default on both sides when the index runs off the end). -/
lemma getD_sliceRow {l : List Nat} {rowBytes y c : Nat} (hc : c < rowBytes) :
    (sliceRow l rowBytes y).getD c 0 = l.getD (y * rowBytes + c) 0 := by
  by_cases hin : y * rowBytes + c < l.length
  · have hlen : c < (sliceRow l rowBytes y).length := by
      simp only [sliceRow, List.length_take, List.length_drop]
      omega
    rw [List.getD_eq_getElem _ _ hlen, List.getD_eq_getElem _ _ hin]
    simp only [sliceRow]
    rw [List.getElem_take, List.getElem_drop]
  · have h1 : (sliceRow l rowBytes y).length ≤ c := by
      simp only [sliceRow, List.length_take, List.length_drop]
      omega
    rw [List.getD_eq_default _ _ h1, List.getD_eq_default _ _ (by omega)]

/- ## TGA codec (`part_000`, namespace `TGA`) -/

/-- The 18 bytes of the packed TGA header with the given field values and
all other fields zero — the layout of `TGA::Header` (offsets 0–17), as a
`Header hdr{}` with only `dataTypeCode`, `width`, `height`, `bitsPerPixel`
and `imageDescriptor` assigned, plus an arbitrary `colorMapType` so that
test files for the validation paths can be built. -/
def mkFile (colorMapType dataTypeCode w h bpp descriptor : Nat)
    (payload : List Nat) : List Nat :=
  [0, colorMapType, dataTypeCode, 0, 0, 0, 0, 0, 0, 0, 0, 0,
   w % 256, w / 256, h % 256, h / 256, bpp, descriptor] ++ payload

namespace TGA

/-- `TGA::load` of the first `part_000` program (lines 64–94): validate
`colorMapType`, `dataTypeCode`, `bitsPerPixel` (three distinct failures),
skip the image-ID field, read `width*height*3` payload bytes (truncation
is a fourth distinct failure), and reverse the scanline order when the
`0x20` orientation bit of `imageDescriptor` is set.  Error strings omit
the `path + ": "` prefix, which carries no information in a byte-level
model. -/
def load (file : List Nat) : Except String Image :=
  let b := fun i => file.getD i 0
  if b 1 ≠ 0 then .error "only unmapped images supported"
  else if b 2 ≠ 2 then .error "need uncompressed RGB (2)"
  else if b 16 ≠ 24 then .error "need 24-bit RGB"
  else
    let w := u16 (b 12) (b 13)
    let h := u16 (b 14) (b 15)
    let payload := (file.drop (18 + b 0)).take (w * h * 3)
    if payload.length < w * h * 3 then .error "truncated pixel data"
    else .ok ⟨w, h, if (b 17).testBit 5 then reverseRows payload (w * 3) h else payload⟩

/-- `TGA::load` of the second `part_000` program (lines 570–600):
identical to `load` except that the `colorMapType` check is absent. -/
def loadV2 (file : List Nat) : Except String Image :=
  let b := fun i => file.getD i 0
  if b 2 ≠ 2 then .error "Need uncompressed RGB (type 2)"
  else if b 16 ≠ 24 then .error "Need 24-bit RGB"
  else
    let w := u16 (b 12) (b 13)
    let h := u16 (b 14) (b 15)
    let payload := (file.drop (18 + b 0)).take (w * h * 3)
    if payload.length < w * h * 3 then .error "Truncated pixel data"
    else .ok ⟨w, h, if (b 17).testBit 5 then reverseRows payload (w * 3) h else payload⟩

/-- `TGA::save` of the first `part_000` program (lines 96–115): header
with data-type 2, the buffer's dimensions, 24 bpp, descriptor `0x00`
(bottom-left), then the scanlines written in memory order. -/
def save (img : Image) : List Nat :=
  mkFile 0 2 img.width img.height 24 0x00
    (forwardRows img.pixels (img.width * 3) img.height)

/-- `TGA::save` of the second `part_000` program (lines 602–621): same
header (descriptor `0x00`), but the row loop writes scanline
`height-1-y` at file row `y`, i.e. the rows in reversed order. -/
def saveV2 (img : Image) : List Nat :=
  mkFile 0 2 img.width img.height 24 0x00
    (reverseRows img.pixels (img.width * 3) img.height)

/-- `TGA::save` of the third `part_000` program (lines 1015–1034): the
pixel bytes are written as one block in memory order, and the header's
`imageDescriptor` is `0x20` (top-left flag set). -/
def saveV3 (img : Image) : List Nat :=
  mkFile 0 2 img.width img.height 24 0x20 img.pixels

end TGA

/- ## Blend engine (`part_000` first program, namespace `Blend`) -/

namespace Blend

inductive Mode where
  | ADD | SUBTRACT | MULTIPLY | SCREEN | OVERLAY
deriving DecidableEq

/-- `Blend::mul255_round` (line 128): `(a*b + 127) / 255`, returned
through `uint8_t` (hence the final `% 256`, which only matters for the
out-of-range `2*A ≥ 256` calls whose results `blendPixel` discards). -/
def mul255_round (a b : Nat) : Nat := ((a * b + 127) / 255) % 256

/-- `Blend::scr255_round` (line 129): `255 - ((255-a)*(255-b) + 127)/255`,
returned through `uint8_t`. -/
def scr255_round (a b : Nat) : Nat :=
  (255 - ((255 - a) * (255 - b) + 127) / 255) % 256

/-- One channel of `Blend::blendPixel` (lines 145–177); `a` is the base
(bottom) sample and `b` the overlay (top) sample, as passed by
`Blend::apply`.  The `MULTIPLY`/`SCREEN` table lookups
`multiply_lut[a][b]` / `screen_lut[a][b]` are the tabulated
`mul255_round` / `scr255_round` values (`init_luts`, lines 131–139). -/
def blendChannel : Mode → Nat → Nat → Nat
  | .ADD, a, b => if a + b > 255 then 255 else a + b
  | .SUBTRACT, a, b => if a > b then a - b else 0
  | .MULTIPLY, a, b => mul255_round a b
  | .SCREEN, a, b => scr255_round a b
  | .OVERLAY, a, b =>
      if a < 128 then mul255_round (2 * a) b
      else 255 - mul255_round (2 * (255 - a)) (255 - b)

/-- `Blend::apply` (lines 179–203): reject a dimension mismatch, else
blend the `width*height*3` output samples channel by channel (`blendPixel`
over consecutive 3-byte pixels is the same flat per-sample loop). -/
def apply (bot top : Image) (m : Mode) : Except String Image :=
  if bot.width ≠ top.width ∨ bot.height ≠ top.height then
    .error ("Blend size mismatch: base (" ++ toString bot.width ++ "x" ++
      toString bot.height ++ ") vs overlay (" ++ toString top.width ++ "x" ++
      toString top.height ++ ")")
  else
    .ok ⟨bot.width, bot.height,
      (List.range (bot.width * bot.height * 3)).map fun j =>
        blendChannel m (bot.pixels.getD j 0) (top.pixels.getD j 0)⟩

end Blend

/-- `combineRGB` of the first `part_000` program (lines 234–246): reject a
dimension mismatch, else for each pixel `p` write
`out[3p+2] = r.pixels[3p]`, `out[3p+1] = g.pixels[3p]`,
`out[3p+0] = b.pixels[3p]` — every source buffer is read at its channel
slot 0 (the blue slot). -/
def combineRGB (r g b : Image) : Except String Image :=
  if r.width ≠ g.width ∨ r.width ≠ b.width ∨
     r.height ≠ g.height ∨ r.height ≠ b.height then
    .error "combine size mismatch"
  else
    .ok ⟨r.width, r.height,
      ((List.range (r.width * r.height)).map fun p =>
        [b.pixels.getD (3 * p) 0, g.pixels.getD (3 * p) 0,
         r.pixels.getD (3 * p) 0]).flatten⟩

/-- `rotate180` of the first `part_000` program (lines 248–259): output
pixel `p` is the three bytes of input pixel `width*height - 1 - p`. -/
def rotate180 (src : Image) : Image :=
  ⟨src.width, src.height, reverseRows src.pixels 3 (src.width * src.height)⟩

/- ## `src/project2.cpp` (namespace `P2`) -/

namespace P2

/-- `struct Pixel { unsigned char b,g,r; }` of `project2.cpp`. -/
structure Pixel where
  b : Nat
  g : Nat
  r : Nat
deriving DecidableEq

/-- `struct Header` of `project2.cpp` (packed, read and written by
`memcpy`-style stream I/O).  The multi-byte fields are little-endian;
this model keeps them as `Nat` (the C++ `short` fields are signed, but
every file the claims concern has values below `2^15`). -/
structure Header where
  idLength : Nat
  colorMapType : Nat
  dataTypeCode : Nat
  colorMapOrigin : Nat
  colorMapLength : Nat
  colorMapDepth : Nat
  xOrigin : Nat
  yOrigin : Nat
  width : Nat
  height : Nat
  bitsPerPixel : Nat
  imageDescriptor : Nat
deriving DecidableEq

/-- Serialisation of `Header` back to its 18 packed bytes (what
`f.write(&im.h, sizeof(Header))` emits). -/
def Header.toBytes (h : Header) : List Nat :=
  [h.idLength, h.colorMapType, h.dataTypeCode,
   h.colorMapOrigin % 256, h.colorMapOrigin / 256,
   h.colorMapLength % 256, h.colorMapLength / 256,
   h.colorMapDepth,
   h.xOrigin % 256, h.xOrigin / 256,
   h.yOrigin % 256, h.yOrigin / 256,
   h.width % 256, h.width / 256,
   h.height % 256, h.height / 256,
   h.bitsPerPixel, h.imageDescriptor]

/-- `struct Img { Header h; vector of Pixel px; }` of `project2.cpp`. -/
structure Img where
  h : Header
  px : List Pixel
deriving DecidableEq

/-- `readTGA` (lines 49–71): read and keep the raw header, validate only
`bitsPerPixel == 24 && dataTypeCode == 2` (one combined failure, exit 3),
skip the ID field, read `width*height` BGR pixels.  No orientation
handling of any kind.  A file shorter than the header is the distinct
"Bad header" failure (exit 2). -/
def readTGA (file : List Nat) : Except String Img :=
  if file.length < 18 then .error "Bad header"
  else
    let b := fun i => file.getD i 0
    let hdr : Header :=
      ⟨b 0, b 1, b 2, u16 (b 3) (b 4), u16 (b 5) (b 6), b 7,
       u16 (b 8) (b 9), u16 (b 10) (b 11), u16 (b 12) (b 13),
       u16 (b 14) (b 15), b 16, b 17⟩
    if hdr.bitsPerPixel ≠ 24 ∨ hdr.dataTypeCode ≠ 2 then
      .error "Unexpected TGA format"
    else
      let count := hdr.width * hdr.height
      let payload := (file.drop (18 + hdr.idLength)).take (count * 3)
      if payload.length < count * 3 then .error "Truncated pixel data"
      else
        .ok ⟨hdr, (List.range count).map fun p =>
          ⟨payload.getD (3 * p) 0, payload.getD (3 * p + 1) 0,
           payload.getD (3 * p + 2) 0⟩⟩

/-- `writeTGA` (lines 73–78): the stored header is written back verbatim,
followed by the pixel bytes. -/
def writeTGA (im : Img) : List Nat :=
  im.h.toBytes ++ (im.px.map fun p => [p.b, p.g, p.r]).flatten

/-- `CLAMP`/`c255` (lines 37–38): clamp an `int` to `[0, 255]`. -/
def c255 (v : Int) : Nat :=
  if v < 0 then 0 else if v > 255 then 255 else v.toNat

inductive Mode where
  | MULTI | SUBTR | SCREEN | OVERLAY
deriving DecidableEq

/-- One channel of the `switch` in `blend` (lines 94–125); `a` is the
sample of the first operand `top` (`A`), `b` of the second operand
`bottom` (`B`).  All divisions are C `int` divisions; on the byte-range
values that occur every numerator is non-negative, where Lean's integer
division agrees with C's truncation. -/
def blendChannel : Mode → Nat → Nat → Nat
  | .MULTI, a, b => c255 ((a * b : Int) / 255)
  | .SUBTR, a, b => c255 ((b : Int) - (a : Int))
  | .SCREEN, a, b => c255 (255 - ((255 - (a : Int)) * (255 - (b : Int))) / 255)
  | .OVERLAY, a, b =>
      c255 (if (b : Int) < 128 then (2 * a * b : Int) / 255
            else 255 - (2 * (255 - (a : Int)) * (255 - (b : Int))) / 255)

/-- Per-pixel body of `blend`: the channel rule applied to each of the
three channels of `A = top.px[i]`, `B = bottom.px[i]`. -/
def blendPixel (m : Mode) (A B : Pixel) : Pixel :=
  ⟨blendChannel m A.b B.b, blendChannel m A.g B.g, blendChannel m A.r B.r⟩

/-- `blend(top, bottom, m)` (lines 88–129): reject a dimension mismatch
(exit 42, modelled as an error value), else blend pixelwise; the output
`Img` inherits `top`'s header via `cloneLike`. -/
def blend (top bottom : Img) (m : Mode) : Except String Img :=
  if top.h.width ≠ bottom.h.width ∨ top.h.height ≠ bottom.h.height then
    .error "Image sizes mismatch in blend"
  else
    .ok ⟨top.h, (List.range top.px.length).map fun i =>
      blendPixel m (top.px.getD i ⟨0, 0, 0⟩) (bottom.px.getD i ⟨0, 0, 0⟩)⟩

/-- `combineRGB` of `project2.cpp` (lines 156–168): reject a dimension
mismatch (exit 99), else take each output channel from the matching
channel of the corresponding source (`o.r = r.px[i].r`, `o.g = g.px[i].g`,
`o.b = b.px[i].b`); the output inherits `r`'s header via `cloneLike`. -/
def combineRGB (r g b : Img) : Except String Img :=
  if r.h.width ≠ g.h.width ∨ r.h.width ≠ b.h.width ∨
     r.h.height ≠ g.h.height ∨ r.h.height ≠ b.h.height then
    .error "combineRGB mismatch sizes"
  else
    .ok ⟨r.h, (List.range r.px.length).map fun i =>
      ⟨(b.px.getD i ⟨0, 0, 0⟩).b, (g.px.getD i ⟨0, 0, 0⟩).g,
       (r.px.getD i ⟨0, 0, 0⟩).r⟩⟩

/-- `rot180` (lines 170–175): `std::reverse` of the pixel vector — whole
3-byte pixels reversed, header kept. -/
def rot180 (src : Img) : Img := ⟨src.h, src.px.reverse⟩

end P2

/- ## Codec reduction lemmas -/

lemma u16_split (w : Nat) : u16 (w % 256) (w / 256) = w := Nat.mod_add_div w 256

lemma load_mkFile (w h d : Nat) (payload : List Nat)
    (hlen : payload.length = w * h * 3) :
    TGA.load (mkFile 0 2 w h 24 d payload) =
      .ok ⟨w, h, if d.testBit 5 then reverseRows payload (w * 3) h else payload⟩ := by
  have htake : payload.take (w * h * 3) = payload :=
    List.take_of_length_le (le_of_eq hlen)
  simp only [TGA.load, mkFile, List.cons_append, List.nil_append,
    List.getD_cons_succ, List.getD_cons_zero, u16_split,
    List.drop_succ_cons, List.drop_zero, htake]
  norm_num [hlen]

lemma loadV2_mkFile (w h d : Nat) (payload : List Nat)
    (hlen : payload.length = w * h * 3) :
    TGA.loadV2 (mkFile 0 2 w h 24 d payload) =
      .ok ⟨w, h, if d.testBit 5 then reverseRows payload (w * 3) h else payload⟩ := by
  have htake : payload.take (w * h * 3) = payload :=
    List.take_of_length_le (le_of_eq hlen)
  simp only [TGA.loadV2, mkFile, List.cons_append, List.nil_append,
    List.getD_cons_succ, List.getD_cons_zero, u16_split,
    List.drop_succ_cons, List.drop_zero, htake]
  norm_num [hlen]

lemma readTGA_mkFile (c w h d : Nat) (payload : List Nat)
    (hlen : payload.length = w * h * 3) :
    P2.readTGA (mkFile c 2 w h 24 d payload) =
      .ok ⟨⟨0, c, 2, 0, 0, 0, 0, 0, w, h, 24, d⟩,
        (List.range (w * h)).map fun p =>
          ⟨payload.getD (3 * p) 0, payload.getD (3 * p + 1) 0,
           payload.getD (3 * p + 2) 0⟩⟩ := by
  have htake : payload.take (w * h * 3) = payload :=
    List.take_of_length_le (le_of_eq hlen)
  simp only [P2.readTGA, mkFile, List.cons_append, List.nil_append,
    List.getD_cons_succ, List.getD_cons_zero, u16_split,
    List.drop_succ_cons, List.drop_zero, List.length_cons, List.length_append,
    htake]
  norm_num [hlen, u16]

/- ## Claim C3 — encode/decode round trip -/

/-- C3 (counterexample): for the concrete 1×2 buffer with distinct rows,
encoding with the second variant's `TGA::save` and decoding the file does
NOT reproduce the pixel byte sequence — the rows come back vertically
flipped. -/
theorem c3_counterexample :
    TGA.loadV2 (TGA.saveV2 ⟨1, 2, [1, 1, 1, 2, 2, 2]⟩) =
      Except.ok ⟨1, 2, [2, 2, 2, 1, 1, 1]⟩ ∧
    (⟨1, 2, [2, 2, 2, 1, 1, 1]⟩ : Image) ≠ ⟨1, 2, [1, 1, 1, 2, 2, 2]⟩ :=
  ⟨rfl, by decide⟩

/-- C3 (amended): for every valid buffer, encoding with the first
variant's `TGA::save` (rows in memory order, descriptor 0) and decoding
reproduces the identical width, height and pixel bytes; the second
variant's `TGA::save` writes the scanlines in reversed order (still with
descriptor 0), so its round trip yields the buffer with vertically
flipped rows instead. -/
theorem c3_roundtrip (img : Image) (_hw : 0 < img.width) (_hh : 0 < img.height)
    (hlen : img.pixels.length = img.width * img.height * 3) :
    TGA.load (TGA.save img) = Except.ok img ∧
    TGA.loadV2 (TGA.saveV2 img) =
      Except.ok ⟨img.width, img.height,
        reverseRows img.pixels (img.width * 3) img.height⟩ := by
  have hlen' : img.pixels.length = img.height * (img.width * 3) := by rw [hlen]; ring
  constructor
  · have hfwd : forwardRows img.pixels (img.width * 3) img.height = img.pixels :=
      forwardRows_eq _ _ hlen'
    rw [TGA.save, hfwd, load_mkFile _ _ _ _ hlen]
    norm_num
  · have hrev : (reverseRows img.pixels (img.width * 3) img.height).length =
        img.width * img.height * 3 := by
      rw [reverseRows_length hlen']; ring
    rw [TGA.saveV2, loadV2_mkFile _ _ _ _ hrev]
    norm_num

/-- C3 (witness): the first-variant round trip at the 2×2 buffer of the
repository's own test. -/
theorem c3_witness :
    TGA.load (TGA.save ⟨2, 2, [0, 0, 255, 0, 255, 0, 255, 0, 0, 128, 128, 128]⟩) =
      Except.ok ⟨2, 2, [0, 0, 255, 0, 255, 0, 255, 0, 0, 128, 128, 128]⟩ :=
  (c3_roundtrip ⟨2, 2, [0, 0, 255, 0, 255, 0, 255, 0, 0, 128, 128, 128]⟩
    (by decide) (by decide) (by decide)).1

/- ## Claim C4 — orientation normalization on decode -/

/-- C4 (counterexample): the two concrete 1×2 files holding the same
logical image — one bottom-origin (flag clear, payload `[4,5,6],[1,2,3]`),
one top-origin (flag `0x20` set, payload `[1,2,3],[4,5,6]`) — decode to
the same buffer under `TGA::load`, but `project2.cpp`'s `readTGA` decodes
them to different pixel sequences, because it never reorders the payload. -/
theorem c4_counterexample :
    TGA.load (mkFile 0 2 1 2 24 32 [1, 2, 3, 4, 5, 6]) =
      TGA.load (mkFile 0 2 1 2 24 0 [4, 5, 6, 1, 2, 3]) ∧
    (P2.readTGA (mkFile 0 2 1 2 24 32 [1, 2, 3, 4, 5, 6])).toOption.map P2.Img.px ≠
      (P2.readTGA (mkFile 0 2 1 2 24 0 [4, 5, 6, 1, 2, 3])).toOption.map P2.Img.px :=
  ⟨rfl, by decide⟩

/-- C4 (amended): `TGA::load` behaves as the claim states — with the
`0x20` bit set it reverses the scanline order row by row, with it clear it
copies the payload unchanged, so a top-origin file and the bottom-origin
file with the same logical image decode identically; `project2.cpp`'s
`readTGA`, however, copies the payload with no reordering regardless of
the bit. -/
theorem c4_orientation (w h : Nat) (q pxs : List Nat)
    (hq : q.length = w * h * 3) (hpx : pxs = reverseRows q (w * 3) h) :
    TGA.load (mkFile 0 2 w h 24 32 q) =
      Except.ok ⟨w, h, reverseRows q (w * 3) h⟩ ∧
    TGA.load (mkFile 0 2 w h 24 0 pxs) = Except.ok ⟨w, h, pxs⟩ ∧
    TGA.load (mkFile 0 2 w h 24 32 q) = TGA.load (mkFile 0 2 w h 24 0 pxs) ∧
    (P2.readTGA (mkFile 0 2 w h 24 32 q)).toOption.map P2.Img.px =
      (P2.readTGA (mkFile 0 2 w h 24 0 q)).toOption.map P2.Img.px := by
  have hq' : q.length = h * (w * 3) := by rw [hq]; ring
  have hpxlen : pxs.length = w * h * 3 := by
    rw [hpx, reverseRows_length hq']; ring
  have h1 : TGA.load (mkFile 0 2 w h 24 32 q) =
      Except.ok ⟨w, h, reverseRows q (w * 3) h⟩ := by
    rw [load_mkFile _ _ _ _ hq]
    simp [show Nat.testBit 32 5 = true from by decide]
  have h2 : TGA.load (mkFile 0 2 w h 24 0 pxs) = Except.ok ⟨w, h, pxs⟩ := by
    rw [load_mkFile _ _ _ _ hpxlen]
    simp [show Nat.testBit 0 5 = false from by decide]
  refine ⟨h1, h2, ?_, ?_⟩
  · rw [h1, h2, hpx]
  · rw [readTGA_mkFile _ _ _ _ _ hq, readTGA_mkFile _ _ _ _ _ hq]
    rfl

/-- C4 (witness): the orientation theorem at the concrete 1×2 image. -/
theorem c4_witness :
    TGA.load (mkFile 0 2 1 2 24 32 [1, 2, 3, 4, 5, 6]) =
      Except.ok ⟨1, 2, reverseRows [1, 2, 3, 4, 5, 6] (1 * 3) 2⟩ :=
  (c4_orientation 1 2 [1, 2, 3, 4, 5, 6] [4, 5, 6, 1, 2, 3]
    (by decide) (by decide)).1

/- ## Claim C5 — header written by encode -/

/-- C5 (counterexample): the third variant's `TGA::save` writes image
descriptor `0x20`, not 0, for a concrete buffer — the bottom-origin
convention is not used for all writes. -/
theorem c5_counterexample :
    (TGA.saveV3 ⟨1, 1, [5, 6, 7]⟩).getD 17 0 ≠ 0 := by decide

/-- C5 (amended): the first (and second) variant's `TGA::save` writes the
fixed 18-byte header with data-type code 2, the buffer's width and height
(little-endian), 24 bits-per-pixel and image descriptor 0; the third
variant's save always writes descriptor `0x20` (top-origin flag set), and
`project2.cpp`'s `writeTGA` re-emits the header stored in the `Img`
verbatim, so its descriptor follows the source file rather than being
forced to 0. -/
theorem c5_header (img : Image) (p : P2.Img) :
    (TGA.save img).take 18 =
      [0, 0, 2, 0, 0, 0, 0, 0, 0, 0, 0, 0, img.width % 256, img.width / 256,
       img.height % 256, img.height / 256, 24, 0] ∧
    u16 ((TGA.save img).getD 12 0) ((TGA.save img).getD 13 0) = img.width ∧
    u16 ((TGA.save img).getD 14 0) ((TGA.save img).getD 15 0) = img.height ∧
    (TGA.save img).getD 2 0 = 2 ∧
    (TGA.save img).getD 16 0 = 24 ∧
    (TGA.save img).getD 17 0 = 0 ∧
    (TGA.saveV2 img).getD 17 0 = 0 ∧
    (TGA.saveV3 img).getD 17 0 = 32 ∧
    (P2.writeTGA p).take 18 = p.h.toBytes ∧
    (P2.writeTGA p).getD 17 0 = p.h.imageDescriptor := by
  refine ⟨?_, ?_, ?_, ?_, ?_, ?_, ?_, ?_, ?_, ?_⟩ <;>
    simp [TGA.save, TGA.saveV2, TGA.saveV3, P2.writeTGA, P2.Header.toBytes,
      mkFile, List.cons_append, List.take_succ_cons, List.getD_cons_succ,
      List.getD_cons_zero, u16_split]

/- ## Claim C7 — header validation on decode -/

/-- C7 (counterexample): a file whose color-map type is 1 (but which is
otherwise a valid type-2, 24-bit file) is decoded successfully by
`project2.cpp`'s `readTGA` and by the second variant's `TGA::load` — the
color-map-type validation is not performed by every decoder. -/
theorem c7_counterexample :
    (P2.readTGA (mkFile 1 2 1 1 24 0 [9, 9, 9])).toOption.isSome = true ∧
    (TGA.loadV2 (mkFile 1 2 1 1 24 0 [9, 9, 9])).toOption.isSome = true := by
  exact ⟨by decide, by decide⟩

/-- C7 (amended): the first variant's `TGA::load` performs all three
header validations — color-map type 0, data-type code 2, bits-per-pixel
24 — as three distinct failures, in that order, for every input file and
independently of the payload; `project2.cpp`'s `readTGA` and the second
variant's `TGA::load` omit the color-map-type check, so a
`colorMapType ≠ 0` type-2 24-bit file decodes successfully there. -/
theorem c7_validation (file : List Nat) :
    (file.getD 1 0 ≠ 0 → TGA.load file = Except.error "only unmapped images supported") ∧
    (file.getD 1 0 = 0 → file.getD 2 0 ≠ 2 →
      TGA.load file = Except.error "need uncompressed RGB (2)") ∧
    (file.getD 1 0 = 0 → file.getD 2 0 = 2 → file.getD 16 0 ≠ 24 →
      TGA.load file = Except.error "need 24-bit RGB") ∧
    ("only unmapped images supported" ≠ "need uncompressed RGB (2)" ∧
     "only unmapped images supported" ≠ "need 24-bit RGB" ∧
     "need uncompressed RGB (2)" ≠ "need 24-bit RGB") ∧
    (P2.readTGA (mkFile 1 2 1 1 24 0 [9, 9, 9])).toOption.isSome = true ∧
    (TGA.loadV2 (mkFile 1 2 1 1 24 0 [9, 9, 9])).toOption.isSome = true := by
  refine ⟨?_, ?_, ?_, ⟨by decide, by decide, by decide⟩, by decide, by decide⟩
  · intro h1
    simp only [TGA.load]
    rw [if_pos h1]
  · intro h1 h2
    simp only [TGA.load]
    rw [if_neg (not_ne_iff.mpr h1), if_pos h2]
  · intro h1 h2 h3
    simp only [TGA.load]
    rw [if_neg (not_ne_iff.mpr h1), if_neg (not_ne_iff.mpr h2), if_pos h3]

/-- C7 (witness): the three distinct validation failures at concrete
files violating exactly one check each. -/
theorem c7_witness :
    TGA.load (mkFile 1 2 1 1 24 0 [9, 9, 9]) =
      Except.error "only unmapped images supported" ∧
    TGA.load (mkFile 0 7 1 1 24 0 [9, 9, 9]) =
      Except.error "need uncompressed RGB (2)" ∧
    TGA.load (mkFile 0 2 1 1 16 0 [9, 9, 9]) =
      Except.error "need 24-bit RGB" :=
  ⟨(c7_validation (mkFile 1 2 1 1 24 0 [9, 9, 9])).1 (by decide),
   (c7_validation (mkFile 0 7 1 1 24 0 [9, 9, 9])).2.1 (by decide) (by decide),
   (c7_validation (mkFile 0 2 1 1 16 0 [9, 9, 9])).2.2.1
     (by decide) (by decide) (by decide)⟩

/- ## Claim C1 — Multiply/Screen rounding -/

/-- C1: `project2.cpp`'s Multiply and Screen use truncating division, not
the round-to-nearest `(num+127)/255` the claim (and the spec, which calls
truncation here a correctness bug) requires: at base 1, overlay 128 the
Multiply claim value is `(1*128+127)/255 = 1` (and `part_000`'s
`mul255_round` returns 1), but `project2.cpp` returns 0; at base 254,
overlay 127 the Screen claim value is 254 (as `scr255_round` returns),
but `project2.cpp` returns 255. -/
theorem c1_truncation_bug :
    P2.blendChannel .MULTI 128 1 = 0 ∧
    Blend.mul255_round 1 128 = 1 ∧ (1 * 128 + 127) / 255 = 1 ∧
    P2.blendChannel .SCREEN 127 254 = 255 ∧
    Blend.scr255_round 254 127 = 254 := by decide

/- ## Claim C2 — Subtract is base minus overlay, floored at 0 -/

/-- C2: for equal-sized buffers, `Blend::apply` with `SUBTRACT` yields,
per sample, the base (bottom) sample minus the overlay (top) sample
floored at 0 (that is exactly truncated `Nat` subtraction), and
`project2.cpp`'s Subtract channel likewise computes bottom minus top
saturating at 0 — never overlay minus base. -/
theorem c2_subtract (bot top : Image) (hw : bot.width = top.width)
    (hh : bot.height = top.height) :
    (∃ out, Blend.apply bot top .SUBTRACT = Except.ok out ∧
      out.width = bot.width ∧ out.height = bot.height ∧
      out.pixels.length = bot.width * bot.height * 3 ∧
      ∀ i, i < bot.width * bot.height * 3 →
        out.pixels.getD i 0 = bot.pixels.getD i 0 - top.pixels.getD i 0) ∧
    (∀ a b : Nat, b ≤ 255 → P2.blendChannel .SUBTR a b = b - a) := by
  constructor
  · have happ : Blend.apply bot top .SUBTRACT =
        Except.ok ⟨bot.width, bot.height,
          (List.range (bot.width * bot.height * 3)).map fun j =>
            Blend.blendChannel .SUBTRACT (bot.pixels.getD j 0) (top.pixels.getD j 0)⟩ := by
      rw [Blend.apply, if_neg (by push_neg; exact ⟨hw, hh⟩)]
    refine ⟨_, happ, rfl, rfl, by simp, fun i hi => ?_⟩
    rw [List.getD_eq_getElem _ _ (by simpa using hi)]
    rw [List.getElem_map, List.getElem_range]
    simp only [Blend.blendChannel]
    split <;> omega
  · intro a b hb
    simp only [P2.blendChannel, P2.c255]
    split
    · omega
    · split <;> omega

/-- C2 (witness): the spec's own "Subtract floor" case — bottom 50,
top 100 gives 0 in both implementations. -/
theorem c2_witness :
    (Blend.apply ⟨1, 1, [50, 50, 50]⟩ ⟨1, 1, [100, 100, 100]⟩ .SUBTRACT).toOption.map
      (fun o => o.pixels.getD 0 0) = some 0 ∧
    P2.blendChannel .SUBTR 100 50 = 0 := by
  obtain ⟨⟨out, happ, _, _, _, hpx⟩, hp2⟩ :=
    c2_subtract ⟨1, 1, [50, 50, 50]⟩ ⟨1, 1, [100, 100, 100]⟩ rfl rfl
  constructor
  · rw [happ]
    show some (out.pixels.getD 0 0) = some 0
    exact congrArg some (by simpa using hpx 0 (by norm_num))
  · simpa using hp2 100 50 (by norm_num)

/- ## Claim C6 — Overlay formula and branch point -/

/-- C6: the Overlay branch point is at base 128 in both implementations,
but `project2.cpp` truncates instead of rounding: at base 1 (low branch),
overlay 64 the claim value is `(2*1*64+127)/255 = 1` — which `part_000`'s
`Blend::blendPixel` returns — while `project2.cpp` returns
`(2*64*1)/255 = 0`. -/
theorem c6_overlay_bug :
    P2.blendChannel .OVERLAY 64 1 = 0 ∧
    Blend.blendChannel .OVERLAY 1 64 = 1 ∧
    (2 * 1 * 64 + 127) / 255 = 1 := by decide

/- ## Claim C8 — dimension mismatch is an error -/

/-- C8: for every blend mode and for combineRGB, in both `part_000` and
`project2.cpp`, operands that differ in width or height make the
operation fail with a dimension-mismatch error and no output buffer. -/
theorem c8_dimension_mismatch (bot top r g b : Image) (m : Blend.Mode)
    (tp bp rp gp bq : P2.Img) (m2 : P2.Mode)
    (h1 : bot.width ≠ top.width ∨ bot.height ≠ top.height)
    (h2 : r.width ≠ g.width ∨ r.width ≠ b.width ∨
      r.height ≠ g.height ∨ r.height ≠ b.height)
    (h3 : tp.h.width ≠ bp.h.width ∨ tp.h.height ≠ bp.h.height)
    (h4 : rp.h.width ≠ gp.h.width ∨ rp.h.width ≠ bq.h.width ∨
      rp.h.height ≠ gp.h.height ∨ rp.h.height ≠ bq.h.height) :
    (∃ e, Blend.apply bot top m = Except.error e) ∧
    (∃ e, combineRGB r g b = Except.error e) ∧
    (∃ e, P2.blend tp bp m2 = Except.error e) ∧
    (∃ e, P2.combineRGB rp gp bq = Except.error e) :=
  ⟨⟨_, by rw [Blend.apply, if_pos h1]⟩,
   ⟨_, by rw [combineRGB, if_pos h2]⟩,
   ⟨_, by rw [P2.blend, if_pos h3]⟩,
   ⟨_, by rw [P2.combineRGB, if_pos h4]⟩⟩

/-- C8 (witness): a 1×1 operand against a 2×1 operand fails in all four
operations. -/
theorem c8_witness :
    (Blend.apply ⟨1, 1, [0, 0, 0]⟩ ⟨2, 1, [0, 0, 0, 0, 0, 0]⟩ .ADD).toOption = none ∧
    (combineRGB ⟨1, 1, [0, 0, 0]⟩ ⟨2, 1, [0, 0, 0, 0, 0, 0]⟩ ⟨1, 1, [0, 0, 0]⟩).toOption = none ∧
    (P2.blend ⟨⟨0, 0, 2, 0, 0, 0, 0, 0, 1, 1, 24, 0⟩, [⟨0, 0, 0⟩]⟩
      ⟨⟨0, 0, 2, 0, 0, 0, 0, 0, 2, 1, 24, 0⟩, [⟨0, 0, 0⟩, ⟨0, 0, 0⟩]⟩ .MULTI).toOption = none ∧
    (P2.combineRGB ⟨⟨0, 0, 2, 0, 0, 0, 0, 0, 1, 1, 24, 0⟩, [⟨0, 0, 0⟩]⟩
      ⟨⟨0, 0, 2, 0, 0, 0, 0, 0, 2, 1, 24, 0⟩, [⟨0, 0, 0⟩, ⟨0, 0, 0⟩]⟩
      ⟨⟨0, 0, 2, 0, 0, 0, 0, 0, 1, 1, 24, 0⟩, [⟨0, 0, 0⟩]⟩).toOption = none := by
  obtain ⟨⟨e1, he1⟩, ⟨e2, he2⟩, ⟨e3, he3⟩, ⟨e4, he4⟩⟩ :=
    c8_dimension_mismatch ⟨1, 1, [0, 0, 0]⟩ ⟨2, 1, [0, 0, 0, 0, 0, 0]⟩
      ⟨1, 1, [0, 0, 0]⟩ ⟨2, 1, [0, 0, 0, 0, 0, 0]⟩ ⟨1, 1, [0, 0, 0]⟩ .ADD
      ⟨⟨0, 0, 2, 0, 0, 0, 0, 0, 1, 1, 24, 0⟩, [⟨0, 0, 0⟩]⟩
      ⟨⟨0, 0, 2, 0, 0, 0, 0, 0, 2, 1, 24, 0⟩, [⟨0, 0, 0⟩, ⟨0, 0, 0⟩]⟩
      ⟨⟨0, 0, 2, 0, 0, 0, 0, 0, 1, 1, 24, 0⟩, [⟨0, 0, 0⟩]⟩
      ⟨⟨0, 0, 2, 0, 0, 0, 0, 0, 2, 1, 24, 0⟩, [⟨0, 0, 0⟩, ⟨0, 0, 0⟩]⟩
      ⟨⟨0, 0, 2, 0, 0, 0, 0, 0, 1, 1, 24, 0⟩, [⟨0, 0, 0⟩]⟩ .MULTI
      (Or.inl (by norm_num)) (Or.inl (by norm_num))
      (Or.inl (by norm_num)) (Or.inl (by norm_num))
  exact ⟨by rw [he1]; rfl, by rw [he2]; rfl, by rw [he3]; rfl, by rw [he4]; rfl⟩

/- ## Claim C9 — combineRGB channel slots -/

/-- Element view of a flatten of uniform-length rows. -/
lemma getD_flatten_uniform {L : List (List Nat)} {rowBytes p c : Nat}
    (hrows : ∀ r ∈ L, r.length = rowBytes) (hp : p < L.length) (hc : c < rowBytes) :
    L.flatten.getD (p * rowBytes + c) 0 = (L.getD p []).getD c 0 := by
  rw [← getD_sliceRow hc, sliceRow_flatten L p hrows hp]

/-- C9 (counterexample): for the concrete 1×1 sources
r = (B,G,R) = (10,20,30), g = (40,50,60), b = (70,80,90), the `part_000`
`combineRGB` output's red sample is 10 (r's blue slot), not r's red
sample 30 — the matching channel slot is not the one read. -/
theorem c9_counterexample :
    ((combineRGB ⟨1, 1, [10, 20, 30]⟩ ⟨1, 1, [40, 50, 60]⟩ ⟨1, 1, [70, 80, 90]⟩).toOption.map
      fun o => o.pixels.getD 2 0) ≠
    some ((⟨1, 1, [10, 20, 30]⟩ : Image).pixels.getD 2 0) := by decide

/-- C9 (amended): `project2.cpp`'s `combineRGB` takes each output channel
from the matching channel slot of the corresponding source
(`o.r = r.px[i].r`, `o.g = g.px[i].g`, `o.b = b.px[i].b`); the `part_000`
`combineRGB` instead reads channel slot 0 (the blue slot) of every
source: output red is `r.pixels[3p]`, green is `g.pixels[3p]`, blue is
`b.pixels[3p]`. -/
theorem c9_channels (r g b : Image) (rp gp bp : P2.Img)
    (h1 : r.width = g.width) (h2 : r.width = b.width)
    (h3 : r.height = g.height) (h4 : r.height = b.height)
    (h5 : rp.h.width = gp.h.width) (h6 : rp.h.width = bp.h.width)
    (h7 : rp.h.height = gp.h.height) (h8 : rp.h.height = bp.h.height) :
    (∃ out, combineRGB r g b = Except.ok out ∧
      ∀ p, p < r.width * r.height →
        out.pixels.getD (p * 3) 0 = b.pixels.getD (3 * p) 0 ∧
        out.pixels.getD (p * 3 + 1) 0 = g.pixels.getD (3 * p) 0 ∧
        out.pixels.getD (p * 3 + 2) 0 = r.pixels.getD (3 * p) 0) ∧
    (∃ out, P2.combineRGB rp gp bp = Except.ok out ∧
      ∀ i, i < rp.px.length →
        out.px.getD i ⟨0, 0, 0⟩ =
          ⟨(bp.px.getD i ⟨0, 0, 0⟩).b, (gp.px.getD i ⟨0, 0, 0⟩).g,
           (rp.px.getD i ⟨0, 0, 0⟩).r⟩) := by
  constructor
  · have happ : combineRGB r g b =
        Except.ok ⟨r.width, r.height,
          ((List.range (r.width * r.height)).map fun p =>
            [b.pixels.getD (3 * p) 0, g.pixels.getD (3 * p) 0,
             r.pixels.getD (3 * p) 0]).flatten⟩ := by
      rw [combineRGB, if_neg (by push_neg; exact ⟨h1, h2, h3, h4⟩)]
    refine ⟨_, happ, fun p hp => ?_⟩
    have hrows : ∀ row ∈ (List.range (r.width * r.height)).map fun p =>
        [b.pixels.getD (3 * p) 0, g.pixels.getD (3 * p) 0, r.pixels.getD (3 * p) 0],
        row.length = 3 := by
      intro row hrow
      obtain ⟨z, _, rfl⟩ := List.mem_map.mp hrow
      rfl
    have hgetD : ∀ c, c < 3 →
        (((List.range (r.width * r.height)).map fun p =>
          [b.pixels.getD (3 * p) 0, g.pixels.getD (3 * p) 0,
           r.pixels.getD (3 * p) 0]).flatten).getD (p * 3 + c) 0 =
        ([b.pixels.getD (3 * p) 0, g.pixels.getD (3 * p) 0,
          r.pixels.getD (3 * p) 0]).getD c 0 := by
      intro c hc
      rw [getD_flatten_uniform hrows (by simpa using hp) hc]
      congr 1
      rw [List.getD_eq_getElem _ _ (by simpa using hp)]
      rw [List.getElem_map, List.getElem_range]
    have e0 := hgetD 0 (by norm_num)
    have e1 := hgetD 1 (by norm_num)
    have e2 := hgetD 2 (by norm_num)
    rw [Nat.add_zero] at e0
    exact ⟨e0, e1, e2⟩
  · have happ : P2.combineRGB rp gp bp =
        Except.ok ⟨rp.h, (List.range rp.px.length).map fun i =>
          ⟨(bp.px.getD i ⟨0, 0, 0⟩).b, (gp.px.getD i ⟨0, 0, 0⟩).g,
           (rp.px.getD i ⟨0, 0, 0⟩).r⟩⟩ := by
      rw [P2.combineRGB, if_neg (by push_neg; exact ⟨h5, h6, h7, h8⟩)]
    refine ⟨_, happ, fun i hi => ?_⟩
    rw [List.getD_eq_getElem _ _ (by simpa using hi)]
    rw [List.getElem_map, List.getElem_range]

/-- C9 (witness): the channel theorem at the concrete 1×1 sources, for
both implementations. -/
theorem c9_witness :
    (combineRGB ⟨1, 1, [10, 20, 30]⟩ ⟨1, 1, [40, 50, 60]⟩
      ⟨1, 1, [70, 80, 90]⟩).toOption.map
      (fun o => (o.pixels.getD 0 0, o.pixels.getD 1 0, o.pixels.getD 2 0)) =
      some (70, 40, 10) ∧
    (P2.combineRGB ⟨⟨0, 0, 2, 0, 0, 0, 0, 0, 1, 1, 24, 0⟩, [⟨10, 20, 30⟩]⟩
      ⟨⟨0, 0, 2, 0, 0, 0, 0, 0, 1, 1, 24, 0⟩, [⟨40, 50, 60⟩]⟩
      ⟨⟨0, 0, 2, 0, 0, 0, 0, 0, 1, 1, 24, 0⟩, [⟨70, 80, 90⟩]⟩).toOption.map
      (fun o => o.px.getD 0 ⟨0, 0, 0⟩) = some ⟨70, 50, 30⟩ := by
  obtain ⟨⟨out1, happ1, hpx1⟩, ⟨out2, happ2, hpx2⟩⟩ :=
    c9_channels ⟨1, 1, [10, 20, 30]⟩ ⟨1, 1, [40, 50, 60]⟩ ⟨1, 1, [70, 80, 90]⟩
      ⟨⟨0, 0, 2, 0, 0, 0, 0, 0, 1, 1, 24, 0⟩, [⟨10, 20, 30⟩]⟩
      ⟨⟨0, 0, 2, 0, 0, 0, 0, 0, 1, 1, 24, 0⟩, [⟨40, 50, 60⟩]⟩
      ⟨⟨0, 0, 2, 0, 0, 0, 0, 0, 1, 1, 24, 0⟩, [⟨70, 80, 90⟩]⟩
      rfl rfl rfl rfl rfl rfl rfl rfl
  obtain ⟨k0, k1, k2⟩ := hpx1 0 (by norm_num)
  constructor
  · rw [happ1]
    show some (out1.pixels.getD 0 0, out1.pixels.getD 1 0, out1.pixels.getD 2 0) =
      some (70, 40, 10)
    refine congrArg some ?_
    have r0 : out1.pixels.getD 0 0 = 70 := by simpa using k0
    have r1 : out1.pixels.getD 1 0 = 40 := by simpa using k1
    have r2 : out1.pixels.getD 2 0 = 10 := by simpa using k2
    rw [r0, r1, r2]
  · rw [happ2]
    show some (out2.px.getD 0 ⟨0, 0, 0⟩) = some ⟨70, 50, 30⟩
    refine congrArg some ?_
    simpa using hpx2 0 (by norm_num)

/- ## Claim C10 — rotate180 point reflection and involution -/

/-- C10: `rotate180` keeps the dimensions, places input pixel
`width*height - 1 - p` (all three channel bytes together) at output pixel
`p`, and applied twice returns the original buffer exactly; likewise
`project2.cpp`'s `rot180` (a whole-pixel `std::reverse`) satisfies the
index rule and is an involution. -/
theorem c10_rotate (img : Image) (x : P2.Img)
    (hlen : img.pixels.length = img.width * img.height * 3) :
    (rotate180 img).width = img.width ∧
    (rotate180 img).height = img.height ∧
    (∀ p c, p < img.width * img.height → c < 3 →
      (rotate180 img).pixels.getD (p * 3 + c) 0 =
        img.pixels.getD ((img.width * img.height - 1 - p) * 3 + c) 0) ∧
    rotate180 (rotate180 img) = img ∧
    (∀ p, p < x.px.length →
      (P2.rot180 x).px.getD p ⟨0, 0, 0⟩ = x.px.getD (x.px.length - 1 - p) ⟨0, 0, 0⟩) ∧
    P2.rot180 (P2.rot180 x) = x := by
  refine ⟨rfl, rfl, ?_, ?_, ?_, ?_⟩
  · intro p c hp hc
    show (reverseRows img.pixels 3 (img.width * img.height)).getD (p * 3 + c) 0 = _
    rw [← getD_sliceRow hc, sliceRow_reverseRows hlen hp, getD_sliceRow hc]
  · cases img with
    | mk w h l =>
        show (⟨w, h, reverseRows (reverseRows l 3 (w * h)) 3 (w * h)⟩ : Image) = _
        rw [reverseRows_reverseRows hlen]
  · intro p hp
    show x.px.reverse.getD p ⟨0, 0, 0⟩ = _
    rw [List.getD_eq_getElem _ _ (by simpa using hp),
      List.getD_eq_getElem _ _ (by omega), List.getElem_reverse]
  · cases x with
    | mk hd px =>
        show (⟨hd, px.reverse.reverse⟩ : P2.Img) = _
        rw [List.reverse_reverse]

/-- C10 (witness): both involutions and the index rule at a concrete 2×1
buffer. -/
theorem c10_witness :
    rotate180 (rotate180 ⟨2, 1, [1, 2, 3, 4, 5, 6]⟩) = ⟨2, 1, [1, 2, 3, 4, 5, 6]⟩ ∧
    P2.rot180 (P2.rot180 ⟨⟨0, 0, 2, 0, 0, 0, 0, 0, 2, 1, 24, 0⟩,
      [⟨1, 2, 3⟩, ⟨4, 5, 6⟩]⟩) =
      ⟨⟨0, 0, 2, 0, 0, 0, 0, 0, 2, 1, 24, 0⟩, [⟨1, 2, 3⟩, ⟨4, 5, 6⟩]⟩ := by
  obtain ⟨-, -, -, hinv, -, hinv2⟩ :=
    c10_rotate ⟨2, 1, [1, 2, 3, 4, 5, 6]⟩
      ⟨⟨0, 0, 2, 0, 0, 0, 0, 0, 2, 1, 24, 0⟩, [⟨1, 2, 3⟩, ⟨4, 5, 6⟩]⟩ (by norm_num)
  exact ⟨hinv, hinv2⟩

end Lab2
